import Mathlib

/-!
Verification of the relevance-scoring core of the Imperial Valley heat-death
news scraper (`imperial_valley_scraper.py`): the keyword-matching engine
`calculate_heat_score` and the threshold classifier `classify_relevance`.

Text is modelled as a list of Unicode code points (`List Nat`).  Case folding
is the ASCII mapping (the rule patterns and the scoring algorithm only
distinguish ASCII letters).  The regular-expression dialect actually used by
the rule tables is tiny: literal characters, `\s+` (one-or-more whitespace),
`.*` (greedy any-but-newline), and non-capturing ordered alternation
`(?:a|b)` whose alternatives are literal/`\s+` sequences.  The matcher below
implements exactly that dialect with Python `re` semantics: leftmost match,
greedy quantifiers with backtracking, ordered alternation, non-overlapping
`findall` that resumes at the end of each match.
-/

namespace IVHeat

/-- Whitespace code points recognised by `\s` (ASCII subset of Python's). -/
def isWS (n : Nat) : Bool :=
  n = 32 || n = 9 || n = 10 || n = 13 || n = 11 || n = 12

/-- ASCII lower-casing of a code point (models `str.lower`). -/
def lowerChar (n : Nat) : Nat :=
  if 65 ≤ n ∧ n ≤ 90 then n + 32 else n

/-- ASCII upper-casing of a code point (models `str.upper`). -/
def upperChar (n : Nat) : Nat :=
  if 97 ≤ n ∧ n ≤ 122 then n - 32 else n

/-- Case-insensitive comparison of a pattern code point with a text code
point (models the `re.IGNORECASE` flag). -/
def charMatches (p t : Nat) : Bool :=
  lowerChar p = lowerChar t

/-- Token of a simple alternative inside `(?:...|...)`: a literal code point
or a `\s+` separator. -/
inductive STok where
  | ch (c : Nat)
  | wsp
deriving DecidableEq, Repr

/-- Token of a rule pattern: literal code point, `\s+`, greedy `.*`, or an
ordered non-capturing alternation of simple alternatives. -/
inductive Tok where
  | ch (c : Nat)
  | wsp
  | star
  | grp (alts : List (List STok))
deriving DecidableEq, Repr

/-- Length of the maximal leading whitespace run. -/
def wsRun : List Nat → Nat
  | [] => 0
  | c :: cs => if isWS c then wsRun cs + 1 else 0

/-- Length of the maximal leading run of characters matched by `.`
(anything except a newline). -/
def dotRun : List Nat → Nat
  | [] => 0
  | c :: cs => if c = 10 then 0 else dotRun cs + 1

/-- Candidate consumption lengths for a greedy quantifier whose maximal
possible run is `k`, longest first: `[k, k-1, ..., 1]`. -/
def greedyDowns (k : Nat) : List Nat :=
  (List.range k).reverse.map (· + 1)

/-- Match a simple token sequence at the head of the text, returning the
number of code points consumed.  `\s+` is greedy with backtracking: it
tries the longest whitespace run first, then shorter ones. -/
def matchS : List STok → List Nat → Option Nat
  | [], _ => some 0
  | STok.ch _ :: _, [] => none
  | STok.ch c :: ts, d :: ds =>
      if charMatches c d then (matchS ts ds).map (· + 1) else none
  | STok.wsp :: ts, ds =>
      (greedyDowns (wsRun ds)).findSome?
        (fun j => (matchS ts (ds.drop j)).map (j + ·))

/-- Match a full pattern at the head of the text, returning the number of
code points consumed.  Greedy quantifiers try longest first; alternation
tries alternatives in written order, moving on when the rest of the
pattern fails.  (Every alternative in the rule tables has a unique possible
match length at a given position, so taking `matchS`'s single greedy result
for it is exact.) -/
def matchT : List Tok → List Nat → Option Nat
  | [], _ => some 0
  | Tok.ch _ :: _, [] => none
  | Tok.ch c :: ts, d :: ds =>
      if charMatches c d then (matchT ts ds).map (· + 1) else none
  | Tok.wsp :: ts, ds =>
      (greedyDowns (wsRun ds)).findSome?
        (fun j => (matchT ts (ds.drop j)).map (j + ·))
  | Tok.star :: ts, ds =>
      (greedyDowns (dotRun ds) ++ [0]).findSome?
        (fun j => (matchT ts (ds.drop j)).map (j + ·))
  | Tok.grp alts :: ts, ds =>
      alts.findSome?
        (fun a => (matchS a ds).bind (fun j => (matchT ts (ds.drop j)).map (j + ·)))

/-- Does the pattern match anywhere in the text?  Models `re.search`. -/
def reSearch (p : List Tok) : List Nat → Bool
  | [] => (matchT p []).isSome
  | d :: ds => (matchT p (d :: ds)).isSome || reSearch p ds

/-- Fuel-driven scan producing every non-overlapping leftmost match as a
pair of (absolute start position, matched code points); after a match the
scan resumes at its end (or one further on an empty match).  The fuel is
only a termination device: `text.length + 1` is always enough, since each
step consumes at least one character of the text. -/
def findallFuel (p : List Tok) : Nat → List Nat → Nat → List (Nat × List Nat)
  | 0, _, _ => []
  | _ + 1, [], pos =>
      match matchT p [] with
      | some _ => [(pos, [])]
      | none => []
  | fuel + 1, d :: ds, pos =>
      match matchT p (d :: ds) with
      | some n =>
          if n = 0 then (pos, []) :: findallFuel p fuel ds (pos + 1)
          else (pos, (d :: ds).take n) :: findallFuel p fuel ((d :: ds).drop n) (pos + n)
      | none => findallFuel p fuel ds (pos + 1)

/-- All non-overlapping matches of a pattern with their start positions. -/
def findallAux (p : List Tok) (ds : List Nat) (pos : Nat) : List (Nat × List Nat) :=
  findallFuel p (ds.length + 1) ds pos

/-- Models `re.findall`: the list of matched substrings, leftmost first. -/
def re_findall (p : List Tok) (ds : List Nat) : List (List Nat) :=
  (findallAux p ds 0).map (·.2)

/-- Code points of a string literal (for concrete inputs). -/
def strText (s : String) : List Nat :=
  s.toList.map Char.toNat

/-- Transcription helper for a simple alternative: a space stands for `\s+`,
every other character is a literal. -/
def spat (s : String) : List STok :=
  s.toList.map (fun c => if c = ' ' then STok.wsp else STok.ch c.toNat)

/-- Transcription helper for a pattern without groups: a space stands for
`\s+`, an asterisk for `.*`, every other character is a literal. -/
def pat (s : String) : List Tok :=
  s.toList.map (fun c =>
    if c = ' ' then Tok.wsp else if c = '*' then Tok.star else Tok.ch c.toNat)

/-- One category of a keyword rule set: its patterns and its weight. -/
structure CatCfg where
  keywords : List (List Tok)
  weight : Int
deriving DecidableEq, Repr

/-- Pattern `scorching\s+(?:heat|temperature)` of the `environmental`
category. -/
def scorchingPat : List Tok :=
  pat ("scorching ") ++ [Tok.grp [spat ("heat"), spat ("temperature")]]

/-- Pattern `(?:air\s+conditioning|A/C)\s+failure.*death` of the
`location_specific` category. -/
def acFailurePat : List Tok :=
  [Tok.grp [spat ("air conditioning"), spat ("A/C")]] ++ pat (" failure*death")

/-- Pattern `no\s+(?:A/C|air\s+conditioning).*death` of the
`location_specific` category. -/
def noAcPat : List Tok :=
  pat ("no ") ++ [Tok.grp [spat ("A/C"), spat ("air conditioning")]] ++ pat ("*death")

/-- The `exclusions` patterns of the English rule table (auto-reject). -/
def EXCL_EN : List (List Tok) :=
  [pat ("heated argument"), pat ("heated debate"), pat ("heat of the moment"),
   pat ("preheat"), pat ("heat pump"), pat ("heating system")]

/-- English keyword rule table `KEYWORDS_EN`, in source (insertion) order. -/
def KEYWORDS_EN : List (String × CatCfg) :=
  [("primary_death",
    { keywords :=
        [pat ("heat death"), pat ("heat-related death"), pat ("heat-caused death"),
         pat ("heat fatality"), pat ("died from heat"), pat ("died of heat"),
         pat ("heat exposure death"), pat ("hyperthermia death"),
         pat ("heat stroke death"), pat ("died from hyperthermia"),
         pat ("succumbed to heat"), pat ("heat related fatality"),
         pat ("heat victim"), pat ("heat casualty")],
      weight := 10 }),
   ("heat_illness",
    { keywords :=
        [pat ("heat stroke"), pat ("heat exhaustion"), pat ("hyperthermia"),
         pat ("heat illness"), pat ("heat related illness"), pat ("heat emergency"),
         pat ("heat-associated"), pat ("severe dehydration")],
      weight := 5 }),
   ("contextual_death",
    { keywords :=
        [pat ("found dead*heat"), pat ("body found*heat"),
         pat ("unresponsive*heat"), pat ("pronounced dead*heat"),
         pat ("died after*heat wave"), pat ("succumbed*heat"),
         pat ("extreme heat*died")],
      weight := 7 }),
   ("environmental",
    { keywords :=
        [pat ("excessive heat warning"), pat ("heat wave"), pat ("extreme heat"),
         pat ("triple-digit temperature"), pat ("record heat"), pat ("blistering heat"),
         pat ("record breaking heat"), pat ("dangerous heat"), pat ("heat advisory"),
         scorchingPat, pat ("heat claims lives"),
         pat ("deadly heat"), pat ("heat turns deadly")],
      weight := 2 }),
   ("location_specific",
    { keywords :=
        [pat ("died in vehicle*heat"), pat ("found in car*heat"),
         pat ("outdoor death*heat"), pat ("homeless*heat death"),
         pat ("farm worker*heat death"), pat ("agricultural worker*heat"),
         acFailurePat, noAcPat, pat ("mobile home*heat death")],
      weight := 8 }),
   ("medical_coroner",
    { keywords :=
        [pat ("coroner*heat"), pat ("medical examiner*heat"), pat ("autopsy*heat"),
         pat ("cause of death*heat"), pat ("heat related cause"),
         pat ("environmental heat*death"), pat ("heat as contributing factor")],
      weight := 3 }),
   ("exclusions", { keywords := EXCL_EN, weight := -100 })]

/-- Spanish keyword rule table `KEYWORDS_ES`, in source (insertion) order.
It defines no `exclusions` category. -/
def KEYWORDS_ES : List (String × CatCfg) :=
  [("primary_death",
    { keywords :=
        [pat ("muerte por calor"), pat ("falleció por calor"),
         pat ("murió por calor"), pat ("sucumbió por calor"),
         pat ("falleció por el calor"), pat ("hipertermia fatal")],
      weight := 10 }),
   ("heat_illness",
    { keywords :=
        [pat ("golpe de calor"), pat ("insolación"), pat ("hipertermia"),
         pat ("deshidratación severa"), pat ("enfermedad por calor")],
      weight := 5 }),
   ("environmental",
    { keywords :=
        [pat ("ola de calor"), pat ("calor extremo"), pat ("temperatura récord"),
         pat ("aviso de calor"), pat ("calor peligroso"), pat ("calor mortal")],
      weight := 2 })]

/-- One keyword match record, as appended to `all_matches` in the source:
the matched (lowercased) substring, the category name, and the category's
weight (the source stores the weight twice, as `weight` and `points`). -/
structure MatchRec where
  keyword : List Nat
  category : String
  weight : Int
  points : Int
deriving DecidableEq, Repr

/-- Per-category aggregation, as stored in `category_scores`. -/
structure CatBreakdown where
  «matches» : Nat
  unique_matches : Nat
  score : Int
deriving DecidableEq, Repr

/-- Inner loop of `calculate_heat_score` over one category's patterns:
returns the category's score contribution, its match records (in pattern
order, occurrences left to right), and the list of matched substrings. -/
def scorePats (cat : String) (w : Int) (ps : List (List Tok)) (tl : List Nat) :
    Int × List MatchRec × List (List Nat) :=
  match ps with
  | [] => (0, [], [])
  | p :: rest =>
      let ms := re_findall p tl
      let r := scorePats cat w rest tl
      ((ms.length : Int) * w + r.1,
       ms.map (fun m => { keyword := m, category := cat, weight := w, points := w }) ++ r.2.1,
       ms ++ r.2.2)

/-- Outer loop of `calculate_heat_score` over the categories of the selected
rule set, skipping `exclusions`; a category enters the breakdown only when
it produced at least one match, with `unique_matches` the number of distinct
matched substrings (`len(set(...))`). -/
def scoreCats (rules : List (String × CatCfg)) (tl : List Nat) :
    Int × List MatchRec × List (String × CatBreakdown) :=
  match rules with
  | [] => (0, [], [])
  | (cat, cfg) :: rest =>
      if cat = "exclusions" then scoreCats rest tl
      else
        let r := scorePats cat cfg.weight cfg.keywords tl
        let rr := scoreCats rest tl
        (r.1 + rr.1,
         r.2.1 ++ rr.2.1,
         (if r.2.2 = [] then []
          else [(cat, { «matches» := r.2.2.length,
                        unique_matches := r.2.2.dedup.length,
                        score := r.1 })]) ++ rr.2.2)

/-- The scorer `calculate_heat_score(text, language)`: lowercase the text,
select the rule set (`KEYWORDS_EN` iff the tag is literally `"en"`, else
`KEYWORDS_ES`), short-circuit to `(0, [], {})` when the language is `"en"`
and any English exclusion pattern occurs in the text, otherwise score every
non-exclusion category. -/
def calculate_heat_score (text : List Nat) (language : String) :
    Int × List MatchRec × List (String × CatBreakdown) :=
  let text_lower := text.map lowerChar
  let keywords_dict := if language = "en" then KEYWORDS_EN else KEYWORDS_ES
  if language = "en" ∧ EXCL_EN.any (fun p => reSearch p text_lower) then
    (0, [], [])
  else
    scoreCats keywords_dict text_lower

/-- The classifier `classify_relevance(score)`: first band whose inclusive
lower bound the score reaches, checked highest-first. -/
def classify_relevance (score : ℚ) : String :=
  if score ≥ 50 then "EXTREMELY_RELEVANT"
  else if score ≥ 20 then "HIGHLY_RELEVANT"
  else if score ≥ 10 then "MODERATELY_RELEVANT"
  else if score > 0 then "MINIMALLY_RELEVANT"
  else "NOT_RELEVANT"

/-! ## Spec-side reading of the scoring algorithm

The following definitions restate steps 3–5 of the spec's algorithm as
direct map/filter/join combinators, to be compared with the loop-shaped
translation above. -/

/-- Categories of a rule set other than `exclusions`. -/
def nonExclusion (rules : List (String × CatCfg)) : List (String × CatCfg) :=
  rules.filter (fun e => e.1 ≠ "exclusions")

/-- Spec-side reading: every occurrence of every pattern of one category,
in pattern order, occurrences left to right. -/
def spec_cat_matches (cfg : CatCfg) (tl : List Nat) : List (List Nat) :=
  (cfg.keywords.map (fun p => re_findall p tl)).flatten

/-- Spec-side reading: a category's subtotal, one `weight` per occurrence. -/
def spec_cat_total (cfg : CatCfg) (tl : List Nat) : Int :=
  ((spec_cat_matches cfg tl).length : Int) * cfg.weight

/-- Spec-side reading: the total score, summed over non-exclusion
categories. -/
def spec_total (rules : List (String × CatCfg)) (tl : List Nat) : Int :=
  ((nonExclusion rules).map (fun e => spec_cat_total e.2 tl)).sum

/-- Spec-side reading: one Match record per occurrence, carrying the matched
substring, the category name and the category weight, ordered by category,
then pattern, then occurrence. -/
def spec_match_list (rules : List (String × CatCfg)) (tl : List Nat) : List MatchRec :=
  ((nonExclusion rules).map (fun e =>
      (spec_cat_matches e.2 tl).map (fun m =>
        { keyword := m, category := e.1, weight := e.2.weight, points := e.2.weight }))).flatten

/-- Spec-side reading: a Breakdown for each non-exclusion category with at
least one match. -/
def spec_breakdown (rules : List (String × CatCfg)) (tl : List Nat) :
    List (String × CatBreakdown) :=
  ((nonExclusion rules).filter (fun e => spec_cat_matches e.2 tl ≠ [])).map
    (fun e => (e.1, { «matches» := (spec_cat_matches e.2 tl).length,
                      unique_matches := (spec_cat_matches e.2 tl).dedup.length,
                      score := spec_cat_total e.2 tl }))

/-! ## Characterization of the scoring loops -/

/-- The per-category pattern loop computes the spec-side per-category data. -/
theorem scorePats_eq (cat : String) (w : Int) (ps : List (List Tok)) (tl : List Nat) :
    scorePats cat w ps tl =
      (((spec_cat_matches ⟨ps, w⟩ tl).length : Int) * w,
       (spec_cat_matches ⟨ps, w⟩ tl).map (fun m =>
         { keyword := m, category := cat, weight := w, points := w }),
       spec_cat_matches ⟨ps, w⟩ tl) := by
  induction ps with
  | nil => simp [scorePats, spec_cat_matches]
  | cons p rest ih =>
      simp only [scorePats, ih, spec_cat_matches, List.map_cons, List.flatten_cons,
        List.length_append, List.map_append, Prod.mk.injEq]
      exact ⟨by push_cast; ring, trivial⟩

/-- The category loop computes the spec-side total, match list and
breakdown. -/
theorem scoreCats_eq (rules : List (String × CatCfg)) (tl : List Nat) :
    scoreCats rules tl =
      (spec_total rules tl, spec_match_list rules tl, spec_breakdown rules tl) := by
  induction rules with
  | nil => simp [scoreCats, spec_total, spec_match_list, spec_breakdown, nonExclusion]
  | cons e rest ih =>
      obtain ⟨cat, cfg⟩ := e
      by_cases hc : cat = "exclusions"
      · simp [scoreCats, hc, ih, spec_total, spec_match_list, spec_breakdown, nonExclusion]
      · simp only [scoreCats, hc, if_false, ih, scorePats_eq, spec_total, spec_match_list,
          spec_breakdown, nonExclusion, List.filter_cons, decide_not]
        simp only [hc, decide_False, Bool.not_false, if_true, List.map_cons, List.flatten_cons,
          List.sum_cons, Prod.mk.injEq, spec_cat_total]
        refine ⟨trivial, trivial, ?_⟩
        by_cases hm : spec_cat_matches cfg tl = [] <;>
          simp [hm, spec_cat_total]

/-- Whenever the exclusion short-circuit does not fire, `calculate_heat_score`
returns exactly the spec-side triple over the selected rule set and the
lowercased text. -/
theorem calc_spec (text : List Nat) (language : String)
    (hexcl : language = "en" →
      ∀ p ∈ EXCL_EN, reSearch p (text.map lowerChar) = false) :
    calculate_heat_score text language =
      (spec_total (if language = "en" then KEYWORDS_EN else KEYWORDS_ES) (text.map lowerChar),
       spec_match_list (if language = "en" then KEYWORDS_EN else KEYWORDS_ES) (text.map lowerChar),
       spec_breakdown (if language = "en" then KEYWORDS_EN else KEYWORDS_ES) (text.map lowerChar)) := by
  have hcond : ¬ (language = "en" ∧ EXCL_EN.any (fun p => reSearch p (text.map lowerChar))) := by
    rintro ⟨hen, hany⟩
    obtain ⟨p, hp, hsearch⟩ := List.any_eq_true.1 hany
    exact absurd hsearch (by simp [hexcl hen p hp])
  simp only [calculate_heat_score, if_neg hcond, scoreCats_eq]

/-! ## Ordering of the match scan -/

/-- Every match reported by the scan starts at or after the scan position. -/
theorem findallFuel_pos_le (p : List Tok) :
    ∀ (fuel : Nat) (ds : List Nat) (pos : Nat) (x : Nat × List Nat),
      x ∈ findallFuel p fuel ds pos → pos ≤ x.1 := by
  intro fuel
  induction fuel with
  | zero => intro ds pos x hx; simp [findallFuel] at hx
  | succ fuel ih =>
      intro ds pos x hx
      cases ds with
      | nil =>
          cases h : matchT p [] with
          | none => simp [findallFuel, h] at hx
          | some n =>
              simp only [findallFuel, h, List.mem_singleton] at hx
              simp [hx]
      | cons d ds =>
          cases h : matchT p (d :: ds) with
          | none =>
              simp only [findallFuel, h] at hx
              exact le_trans (Nat.le_succ pos) (ih ds (pos + 1) x hx)
          | some n =>
              by_cases hn : n = 0
              · simp only [findallFuel, h, hn, if_true, List.mem_cons] at hx
                rcases hx with hx | hx
                · simp [hx]
                · exact le_trans (Nat.le_succ pos) (ih ds (pos + 1) x hx)
              · simp only [findallFuel, h, if_neg hn, List.mem_cons] at hx
                rcases hx with hx | hx
                · simp [hx]
                · exact le_trans (Nat.le_add_right pos n)
                    (ih ((d :: ds).drop n) (pos + n) x hx)

/-- The matches reported by the scan have strictly increasing start
positions: they appear left to right. -/
theorem findallFuel_chain (p : List Tok) :
    ∀ (fuel : Nat) (ds : List Nat) (pos : Nat),
      List.Chain' (fun a b => a.1 < b.1) (findallFuel p fuel ds pos) := by
  intro fuel
  induction fuel with
  | zero => intro ds pos; simp [findallFuel]
  | succ fuel ih =>
      intro ds pos
      cases ds with
      | nil => cases h : matchT p [] <;> simp [findallFuel, h]
      | cons d ds =>
          cases h : matchT p (d :: ds) with
          | none => simpa only [findallFuel, h] using ih ds (pos + 1)
          | some n =>
              by_cases hn : n = 0
              · simp only [findallFuel, h, hn, if_true]
                refine List.chain'_cons'.2 ⟨?_, ih ds (pos + 1)⟩
                intro y hy
                have := findallFuel_pos_le p fuel ds (pos + 1) y (List.mem_of_mem_head? hy)
                omega
              · simp only [findallFuel, h, if_neg hn]
                refine List.chain'_cons'.2 ⟨?_, ih ((d :: ds).drop n) (pos + n)⟩
                intro y hy
                have := findallFuel_pos_le p fuel ((d :: ds).drop n) (pos + n) y
                  (List.mem_of_mem_head? hy)
                omega

/-! ## Case folding -/

/-- Lower-casing an upper-cased code point is plain lower-casing. -/
theorem lowerChar_upperChar (n : Nat) : lowerChar (upperChar n) = lowerChar n := by
  unfold lowerChar upperChar
  split_ifs <;> omega

/-- Lower-casing is idempotent. -/
theorem lowerChar_lowerChar (n : Nat) : lowerChar (lowerChar n) = lowerChar n := by
  unfold lowerChar
  split_ifs <;> omega

/-! ## Sum helpers -/

/-- Dropping the entries a Boolean predicate rejects does not change a sum
when those entries are sent to zero. -/
theorem sum_map_filter_of_zero {α M : Type} [AddCommMonoid M]
    (l : List α) (f : α → M) (q : α → Bool)
    (h : ∀ e ∈ l, q e = false → f e = 0) :
    ((l.filter q).map f).sum = (l.map f).sum := by
  induction l with
  | nil => rfl
  | cons a l ih =>
      have ht : ∀ e ∈ l, q e = false → f e = 0 :=
        fun e he => h e (List.mem_cons_of_mem a he)
      cases hq : q a
      · simp [List.filter_cons, hq, ih ht, h a (List.mem_cons_self a l) hq]
      · simp [List.filter_cons, hq, ih ht]

/-- The total score is the sum of the weights of the individual match
records. -/
theorem weights_sum_aux (l : List (String × CatCfg)) (tl : List Nat) :
    (((l.map (fun e => (spec_cat_matches e.2 tl).map (fun m =>
        ({ keyword := m, category := e.1, weight := e.2.weight,
           points := e.2.weight } : MatchRec)))).flatten.map (fun m => m.weight)).sum) =
      (l.map (fun e => spec_cat_total e.2 tl)).sum := by
  induction l with
  | nil => rfl
  | cons e l ih =>
      simp only [List.map_cons, List.flatten_cons, List.map_append, List.sum_append, ih,
        List.map_map, List.sum_cons]
      congr 1
      show ((spec_cat_matches e.2 tl).map (fun _ => e.2.weight)).sum = spec_cat_total e.2 tl
      rw [List.map_const', List.sum_replicate]
      simp only [spec_cat_total, nsmul_eq_mul]

/-- Total score equals the sum of the record weights. -/
theorem spec_match_weights_sum (rules : List (String × CatCfg)) (tl : List Nat) :
    ((spec_match_list rules tl).map (fun m => m.weight)).sum = spec_total rules tl := by
  unfold spec_match_list spec_total
  exact weights_sum_aux (nonExclusion rules) tl

/-- Every match record's weight is the weight of some non-exclusion
category of the rule set. -/
theorem spec_match_mem_weight (rules : List (String × CatCfg)) (tl : List Nat) :
    ∀ m ∈ spec_match_list rules tl, ∃ e ∈ nonExclusion rules, m.weight = e.2.weight := by
  intro m hm
  simp only [spec_match_list, List.mem_flatten, List.mem_map] at hm
  obtain ⟨inner, ⟨e, he, rfl⟩, hmem⟩ := hm
  obtain ⟨s, _, rfl⟩ := List.mem_map.1 hmem
  exact ⟨e, he, rfl⟩

/-- The breakdown entries' scores sum to the total score. -/
theorem spec_breakdown_score_sum (rules : List (String × CatCfg)) (tl : List Nat) :
    ((spec_breakdown rules tl).map (fun cb => cb.2.score)).sum = spec_total rules tl := by
  unfold spec_breakdown spec_total
  rw [List.map_map]
  refine sum_map_filter_of_zero _ _ _ ?_
  intro e _ hq
  have hqq : spec_cat_matches e.2 tl = [] := by simpa using hq
  simp [Function.comp, spec_cat_total, hqq]

/-- Each breakdown entry is internally consistent with its category's
weight, and its distinct-match count lies between 1 and its match count. -/
theorem spec_breakdown_mem (rules : List (String × CatCfg)) (tl : List Nat) :
    ∀ cb ∈ spec_breakdown rules tl,
      ∃ cfg, (cb.1, cfg) ∈ rules ∧
        cb.2.score = (cb.2.«matches» : Int) * cfg.weight ∧
        1 ≤ cb.2.unique_matches ∧ cb.2.unique_matches ≤ cb.2.«matches» := by
  intro cb hcb
  simp only [spec_breakdown, List.mem_map, List.mem_filter] at hcb
  obtain ⟨e, ⟨hmem, hne⟩, rfl⟩ := hcb
  have hne' : spec_cat_matches e.2 tl ≠ [] := by simpa using hne
  refine ⟨e.2, ?_, rfl, ?_, (List.dedup_sublist _).length_le⟩
  · exact List.mem_of_mem_filter hmem
  · exact List.length_pos.2 (fun hnil => hne' ((List.dedup_eq_nil _).1 hnil))

/-- The match list's length is the sum of the breakdown match counts. -/
theorem spec_match_list_length (rules : List (String × CatCfg)) (tl : List Nat) :
    (spec_match_list rules tl).length =
      ((spec_breakdown rules tl).map (fun cb => cb.2.«matches»)).sum := by
  unfold spec_match_list spec_breakdown
  rw [List.length_flatten, List.map_map, List.map_map]
  simp only [Function.comp_def, List.length_map]
  symm
  refine sum_map_filter_of_zero _ _ _ ?_
  intro e _ hq
  have hqq : spec_cat_matches e.2 tl = [] := by simpa using hq
  simp [hqq]

/-- All non-exclusion categories of the English rule table carry a
positive weight. -/
theorem weights_pos_EN : ∀ e ∈ nonExclusion KEYWORDS_EN, 0 < e.2.weight := by decide

/-- All categories of the Spanish rule table carry a positive weight. -/
theorem weights_pos_ES : ∀ e ∈ nonExclusion KEYWORDS_ES, 0 < e.2.weight := by decide

/-- The scorer depends on its text argument only through its lowercased
form. -/
theorem calc_lower_eq (t1 t2 : List Nat) (language : String)
    (h : t1.map lowerChar = t2.map lowerChar) :
    calculate_heat_score t1 language = calculate_heat_score t2 language := by
  simp only [calculate_heat_score, h]

/-! ## Claims -/

/-- C1: for every English input in which at least one pattern of the
English `exclusions` rule set matches case-insensitively anywhere in the
text, the scorer returns exactly score 0, an empty match list and an empty
category map, regardless of any positive-category keyword occurrences:
the exclusion check runs before, and overrides, all category scoring. -/
theorem exclusion_short_circuit (text : List Nat)
    (h : ∃ p ∈ EXCL_EN, reSearch p (text.map lowerChar) = true) :
    calculate_heat_score text "en" = (0, [], []) := by
  obtain ⟨p, hp, hs⟩ := h
  have hany : EXCL_EN.any (fun q => reSearch q (text.map lowerChar)) = true :=
    List.any_eq_true.2 ⟨p, hp, hs⟩
  simp [calculate_heat_score, hany]

/-- Witness for C1: "Heated argument about a heat death" contains both an
exclusion pattern and a primary-death pattern, and scores `(0, [], {})`. -/
theorem exclusion_short_circuit_witness :
    (∃ p ∈ EXCL_EN,
        reSearch p ((strText ("Heated argument about a heat death")).map lowerChar) = true) ∧
    calculate_heat_score (strText ("Heated argument about a heat death")) "en" = (0, [], []) :=
  ⟨by decide,
   exclusion_short_circuit (strText ("Heated argument about a heat death")) (by decide)⟩

/-- C2: for a supported language with no exclusion firing, the scorer
iterates every non-exclusion category of the selected rule set; each
non-overlapping case-insensitive occurrence contributes the category's
weight to the total and to the category subtotal and yields exactly one
Match record (matched substring, category name, category weight), and each
matched category is aggregated into the breakdown with its match count,
distinct-match count and summed weight; in particular, a text with exactly
two `primary_death` occurrences (weight 10) and one `environmental`
occurrence (weight 2) and no exclusions scores 22 with breakdowns
`primary_death = {matches 2, score 20}` and
`environmental = {matches 1, unique 1, score 2}`. -/
theorem scorer_category_scoring :
    (∀ (text : List Nat) (language : String),
        language = "en" ∨ language = "es" →
        (language = "en" → ∀ p ∈ EXCL_EN, reSearch p (text.map lowerChar) = false) →
        calculate_heat_score text language =
          (spec_total (if language = "en" then KEYWORDS_EN else KEYWORDS_ES)
             (text.map lowerChar),
           spec_match_list (if language = "en" then KEYWORDS_EN else KEYWORDS_ES)
             (text.map lowerChar),
           spec_breakdown (if language = "en" then KEYWORDS_EN else KEYWORDS_ES)
             (text.map lowerChar))) ∧
    calculate_heat_score
        (strText ("heat death reported; another heat death amid extreme heat")) "en" =
      (22,
       [{ keyword := strText ("heat death"), category := "primary_death",
          weight := 10, points := 10 },
        { keyword := strText ("heat death"), category := "primary_death",
          weight := 10, points := 10 },
        { keyword := strText ("extreme heat"), category := "environmental",
          weight := 2, points := 2 }],
       [("primary_death", { «matches» := 2, unique_matches := 1, score := 20 }),
        ("environmental", { «matches» := 1, unique_matches := 1, score := 2 })]) :=
  ⟨fun text language _ hexcl => calc_spec text language hexcl, by decide⟩

/-- Witness for C2 at the concrete English input "heat wave". -/
theorem scorer_category_scoring_witness :
    calculate_heat_score (strText ("heat wave")) "en" =
      (spec_total (if ("en" : String) = "en" then KEYWORDS_EN else KEYWORDS_ES)
         ((strText ("heat wave")).map lowerChar),
       spec_match_list (if ("en" : String) = "en" then KEYWORDS_EN else KEYWORDS_ES)
         ((strText ("heat wave")).map lowerChar),
       spec_breakdown (if ("en" : String) = "en" then KEYWORDS_EN else KEYWORDS_ES)
         ((strText ("heat wave")).map lowerChar)) :=
  scorer_category_scoring.1 (strText ("heat wave")) "en" (Or.inl rfl) (by decide)

/-- C3: the classifier returns exactly one of five labels chosen by
inclusive lower-bound thresholds checked highest-first, and the boundaries
are exact: 50 → EXTREMELY, 49.999 → HIGHLY, 20 → HIGHLY, 19.999 →
MODERATELY, 10 → MODERATELY, 9.999 → MINIMALLY, 0 → NOT_RELEVANT. -/
theorem classify_thresholds (s : ℚ) :
    (50 ≤ s → classify_relevance s = "EXTREMELY_RELEVANT") ∧
    (20 ≤ s → s < 50 → classify_relevance s = "HIGHLY_RELEVANT") ∧
    (10 ≤ s → s < 20 → classify_relevance s = "MODERATELY_RELEVANT") ∧
    (0 < s → s < 10 → classify_relevance s = "MINIMALLY_RELEVANT") ∧
    (s = 0 → classify_relevance s = "NOT_RELEVANT") ∧
    classify_relevance 50 = "EXTREMELY_RELEVANT" ∧
    classify_relevance 49.999 = "HIGHLY_RELEVANT" ∧
    classify_relevance 20 = "HIGHLY_RELEVANT" ∧
    classify_relevance 19.999 = "MODERATELY_RELEVANT" ∧
    classify_relevance 10 = "MODERATELY_RELEVANT" ∧
    classify_relevance 9.999 = "MINIMALLY_RELEVANT" ∧
    classify_relevance 0 = "NOT_RELEVANT" := by
  refine ⟨fun h => ?_, fun h1 h2 => ?_, fun h1 h2 => ?_, fun h1 h2 => ?_, fun h => ?_,
    by norm_num [classify_relevance], by norm_num [classify_relevance],
    by norm_num [classify_relevance], by norm_num [classify_relevance],
    by norm_num [classify_relevance], by norm_num [classify_relevance],
    by norm_num [classify_relevance]⟩ <;>
  · unfold classify_relevance
    split_ifs <;> first | rfl | (exfalso; linarith)

/-- Witness for C3: one representative score per band. -/
theorem classify_thresholds_witness :
    classify_relevance 60 = "EXTREMELY_RELEVANT" ∧
    classify_relevance 30 = "HIGHLY_RELEVANT" ∧
    classify_relevance 15 = "MODERATELY_RELEVANT" ∧
    classify_relevance 5 = "MINIMALLY_RELEVANT" ∧
    classify_relevance 0 = "NOT_RELEVANT" :=
  ⟨(classify_thresholds 60).1 (by norm_num),
   (classify_thresholds 30).2.1 (by norm_num) (by norm_num),
   (classify_thresholds 15).2.2.1 (by norm_num) (by norm_num),
   (classify_thresholds 5).2.2.2.1 (by norm_num) (by norm_num),
   (classify_thresholds 0).2.2.2.2.1 rfl⟩

/-- C4 counterexample: for the unsupported tag "fr" the scorer does not
fail at all — it silently scores with the Spanish rule set and returns a
normal positive result, refuting the claim that it fails with an
InvalidLanguage condition. -/
theorem unsupported_language_counterexample :
    calculate_heat_score (strText ("golpe de calor")) "fr" =
      (5,
       [{ keyword := strText ("golpe de calor"), category := "heat_illness",
          weight := 5, points := 5 }],
       [("heat_illness", { «matches» := 1, unique_matches := 1, score := 5 })]) ∧
    calculate_heat_score (strText ("golpe de calor")) "fr" =
      calculate_heat_score (strText ("golpe de calor")) "es" :=
  ⟨by decide, by decide⟩

/-- C4 amended: for every language tag other than the literal "en" the
scorer silently selects the Spanish rule set, returning exactly the result
of scoring with "es"; no InvalidLanguage failure exists in the code. -/
theorem unsupported_language_defaults_to_spanish (text : List Nat) (language : String)
    (h : language ≠ "en") :
    calculate_heat_score text language = calculate_heat_score text "es" := by
  have hes : ¬ (("es" : String) = "en") := by decide
  simp [calculate_heat_score, h, hes]

/-- Witness for the amended C4 at the tag "fr". -/
theorem unsupported_language_defaults_to_spanish_witness :
    ("fr" : String) ≠ "en" ∧
    calculate_heat_score (strText ("ola de calor")) "fr" =
      calculate_heat_score (strText ("ola de calor")) "es" :=
  ⟨by decide,
   unsupported_language_defaults_to_spanish (strText ("ola de calor")) "fr" (by decide)⟩

/-- C5 counterexample: the English input "heat   related   death" matches
no pattern at all — score 0, empty match list, empty breakdown — so it does
not trigger the pattern that "heat-related death" triggers: the English
table contains `heat-related\s+death` and `heat\s+related\s+fatality` but
no `heat\s+related\s+death`. -/
theorem flexible_whitespace_counterexample :
    calculate_heat_score (strText ("heat   related   death")) "en" = (0, [], []) := by decide

/-- C5 amended: "heat-related death" triggers the `heat-related\s+death`
pattern (one primary_death match of weight 10); flexible whitespace holds
within a single pattern — "heat death" and "heat   death" both trigger
`heat\s+death` — but "heat   related   death" matches no pattern, because
no pattern has `\s+` where `heat-related\s+death` has its hyphen. -/
theorem flexible_whitespace_matching :
    calculate_heat_score (strText ("heat-related death")) "en" =
      (10,
       [{ keyword := strText ("heat-related death"), category := "primary_death",
          weight := 10, points := 10 }],
       [("primary_death", { «matches» := 1, unique_matches := 1, score := 10 })]) ∧
    calculate_heat_score (strText ("heat death")) "en" =
      (10,
       [{ keyword := strText ("heat death"), category := "primary_death",
          weight := 10, points := 10 }],
       [("primary_death", { «matches» := 1, unique_matches := 1, score := 10 })]) ∧
    calculate_heat_score (strText ("heat   death")) "en" =
      (10,
       [{ keyword := strText ("heat   death"), category := "primary_death",
          weight := 10, points := 10 }],
       [("primary_death", { «matches» := 1, unique_matches := 1, score := 10 })]) ∧
    calculate_heat_score (strText ("heat   related   death")) "en" = (0, [], []) :=
  ⟨by decide, by decide, by decide, by decide⟩

/-- C6: for every input text and language the returned score is the sum of
the weights of the returned (all non-exclusion) match records, every such
weight is positive, and the score is never negative — the exclusion
category's weight (-100) is never added; an exclusion match instead forces
the exact result 0. -/
theorem score_nonnegative (text : List Nat) (language : String) :
    (calculate_heat_score text language).1 =
      ((calculate_heat_score text language).2.1.map (fun m => m.weight)).sum ∧
    (∀ m ∈ (calculate_heat_score text language).2.1, 0 < m.weight) ∧
    0 ≤ (calculate_heat_score text language).1 := by
  by_cases hex : language = "en" ∧
      EXCL_EN.any (fun p => reSearch p (text.map lowerChar)) = true
  · simp only [calculate_heat_score, if_pos hex]
    simp
  · have hexcl : language = "en" →
        ∀ p ∈ EXCL_EN, reSearch p (text.map lowerChar) = false := by
      intro hen p hp
      by_contra hne
      exact hex ⟨hen, List.any_eq_true.2 ⟨p, hp, by simpa using hne⟩⟩
    rw [calc_spec text language hexcl]
    have hpos : ∀ e ∈ nonExclusion (if language = "en" then KEYWORDS_EN else KEYWORDS_ES),
        0 < e.2.weight := by
      split_ifs
      · exact weights_pos_EN
      · exact weights_pos_ES
    refine ⟨(spec_match_weights_sum _ _).symm, ?_, ?_⟩
    · intro m hm
      obtain ⟨e, he, hw⟩ := spec_match_mem_weight _ _ m hm
      rw [hw]
      exact hpos e he
    · rw [show (spec_total (if language = "en" then KEYWORDS_EN else KEYWORDS_ES)
          (text.map lowerChar)) = ((spec_match_list (if language = "en" then KEYWORDS_EN
          else KEYWORDS_ES) (text.map lowerChar)).map (fun m => m.weight)).sum from
          (spec_match_weights_sum _ _).symm]
      refine List.sum_nonneg ?_
      intro x hx
      obtain ⟨m, hm, rfl⟩ := List.mem_map.1 hx
      obtain ⟨e, he, hw⟩ := spec_match_mem_weight _ _ m hm
      rw [hw]
      exact le_of_lt (hpos e he)

/-- C7: matching is case-insensitive — scoring the uppercased or the
lowercased form of a text gives exactly the same score, match list and
category breakdown as scoring the text itself, for every language. -/
theorem case_insensitive_scoring (text : List Nat) (language : String) :
    calculate_heat_score (text.map upperChar) language =
      calculate_heat_score text language ∧
    calculate_heat_score (text.map lowerChar) language =
      calculate_heat_score text language := by
  constructor
  · refine calc_lower_eq _ _ language ?_
    rw [List.map_map]
    exact List.map_congr_left (fun a _ => lowerChar_upperChar a)
  · refine calc_lower_eq _ _ language ?_
    rw [List.map_map]
    exact List.map_congr_left (fun a _ => lowerChar_lowerChar a)

/-- C8: when no exclusion fires, the returned match list is exactly the
flattening of per-category record lists in rule-set (insertion) order, each
category's records being its patterns' occurrence lists in pattern order;
and the scan underlying each pattern's occurrence list reports matches at
strictly increasing start positions, i.e. left to right. -/
theorem match_list_ordering :
    (∀ (text : List Nat) (language : String),
        (language = "en" → ∀ p ∈ EXCL_EN, reSearch p (text.map lowerChar) = false) →
        (calculate_heat_score text language).2.1 =
          spec_match_list (if language = "en" then KEYWORDS_EN else KEYWORDS_ES)
            (text.map lowerChar)) ∧
    (∀ (p : List Tok) (ds : List Nat) (pos : Nat),
        List.Chain' (fun a b => a.1 < b.1) (findallAux p ds pos)) := by
  constructor
  · intro text language hexcl
    rw [calc_spec text language hexcl]
  · intro p ds pos
    exact findallFuel_chain p (ds.length + 1) ds pos

/-- Witness for C8 at a concrete English input. -/
theorem match_list_ordering_witness :
    (calculate_heat_score (strText ("heat wave and heat stroke")) "en").2.1 =
      spec_match_list (if ("en" : String) = "en" then KEYWORDS_EN else KEYWORDS_ES)
        ((strText ("heat wave and heat stroke")).map lowerChar) ∧
    List.Chain' (fun a b => a.1 < b.1)
      (findallAux (pat ("heat")) (strText ("heat wave and heat stroke")) 0) :=
  ⟨match_list_ordering.1 (strText ("heat wave and heat stroke")) "en" (by decide),
   match_list_ordering.2 (pat ("heat")) (strText ("heat wave and heat stroke")) 0⟩

/-- C9: when no exclusion fires the scorer's outputs are mutually
consistent: the total score is the sum of the breakdown scores; each
breakdown score is its match count times its category's weight; each
unique-match count lies between 1 and the match count; and the match list's
length is the sum of the breakdown match counts. -/
theorem scorer_internal_consistency (text : List Nat) (language : String)
    (hexcl : language = "en" → ∀ p ∈ EXCL_EN, reSearch p (text.map lowerChar) = false) :
    (calculate_heat_score text language).1 =
      ((calculate_heat_score text language).2.2.map (fun cb => cb.2.score)).sum ∧
    (∀ cb ∈ (calculate_heat_score text language).2.2,
        ∃ cfg, (cb.1, cfg) ∈ (if language = "en" then KEYWORDS_EN else KEYWORDS_ES) ∧
          cb.2.score = (cb.2.«matches» : Int) * cfg.weight ∧
          1 ≤ cb.2.unique_matches ∧ cb.2.unique_matches ≤ cb.2.«matches») ∧
    (calculate_heat_score text language).2.1.length =
      ((calculate_heat_score text language).2.2.map (fun cb => cb.2.«matches»)).sum := by
  rw [calc_spec text language hexcl]
  exact ⟨(spec_breakdown_score_sum _ _).symm, spec_breakdown_mem _ _,
    spec_match_list_length _ _⟩

/-- Witness for C9 at the concrete English input "heat wave". -/
theorem scorer_internal_consistency_witness :
    (calculate_heat_score (strText ("heat wave")) "en").1 =
      ((calculate_heat_score (strText ("heat wave")) "en").2.2.map
        (fun cb => cb.2.score)).sum :=
  (scorer_internal_consistency (strText ("heat wave")) "en" (by decide)).1

/-- C10: the classifier is total over all rationals, and every strictly
negative score falls through to the final else branch: it is classified
NOT_RELEVANT, the same label as score 0, with no error. -/
theorem classify_negative_scores (s : ℚ) (h : s < 0) :
    classify_relevance s = "NOT_RELEVANT" ∧
    classify_relevance s = classify_relevance 0 := by
  have h1 : classify_relevance s = "NOT_RELEVANT" := by
    unfold classify_relevance
    split_ifs <;> first | rfl | (exfalso; linarith)
  have h0 : classify_relevance 0 = "NOT_RELEVANT" := by
    norm_num [classify_relevance]
  exact ⟨h1, h1.trans h0.symm⟩

/-- Witness for C10 at score -1. -/
theorem classify_negative_scores_witness :
    ((-1 : ℚ) < 0) ∧ classify_relevance (-1) = "NOT_RELEVANT" :=
  ⟨by norm_num, (classify_negative_scores (-1) (by norm_num)).1⟩

end IVHeat
